import Mathlib

/-!
Shallow embedding of the gcloudctx core: the switch orchestrator
(`cmd/root.go`), the history tracker (`pkg/history`), the directory-scope
resolver (`pkg/local`), configuration-name validation and the multi-step
rename operation (`pkg/gcloud/types.go`), and the create command
(`cmd/create.go`).

External effects (the gcloud CLI, the filesystem) are modelled by explicit
state: the profile store is a list of configurations plus success oracles
for each external command, the history file is an `Option String`, and a
trace of attempted external calls is returned alongside each result.
-/

namespace Gcloudctx

/-! ## Data model (pkg/gcloud/config.go) -/

/-- Core configuration properties (`CoreProperties`). -/
structure CoreProperties where
  account : String
  project : String
  disableUsageReport : Bool
deriving DecidableEq, Repr

/-- Compute configuration properties (`ComputeProperties`). -/
structure ComputeProperties where
  region : String
  zone : String
deriving DecidableEq, Repr

/-- Configuration properties (`Properties`). -/
structure Properties where
  core : CoreProperties
  compute : ComputeProperties
deriving DecidableEq, Repr

/-- A gcloud configuration (`Configuration`). -/
structure Configuration where
  name : String
  isActive : Bool
  properties : Properties
deriving DecidableEq, Repr

/-- The property set a freshly created configuration has. -/
def emptyProperties : Properties :=
  { core := { account := "", project := "", disableUsageReport := false }
    compute := { region := "", zone := "" } }

/-! ## Whitespace trimming (Go strings.TrimSpace, as used by this repo) -/

/-- Whitespace characters recognised when trimming marker/history file
contents. -/
def isSpaceChar (c : Char) : Bool :=
  c = ' ' || c = '\t' || c = '\n' || c = '\r'

/-- Go strings.TrimSpace: drop leading and trailing whitespace. -/
def trimSpace (s : String) : String :=
  ⟨((s.toList.dropWhile isSpaceChar).reverse.dropWhile isSpaceChar).reverse⟩

/-! ## History tracker (pkg/history/history.go)

The history file state is `Option String`: `none` means the file is
absent, `some data` means it holds `data`. -/

/-- `SavePreviousConfig` writes `name` verbatim to the history file,
truncating prior contents. -/
def SavePreviousConfig (name : String) (_file : Option String) : Option String :=
  some name

/-- Outcome of reading the history file. -/
inductive HistResult where
  | found (name : String)
  | notFound
deriving DecidableEq, Repr

/-- `GetPreviousConfig` reads the history file, trims it, and fails with
not-found both when the file is absent and when the trimmed contents are
empty. -/
def GetPreviousConfig : Option String → HistResult
  | none => .notFound
  | some data =>
    let name := trimSpace data
    if name = "" then .notFound else .found name

/-! ## Configuration-name validation (pkg/gcloud/types.go) -/

/-- A character matched by `[a-zA-Z]`. -/
def isGoLetter (c : Char) : Bool :=
  ('a' ≤ c && c ≤ 'z') || ('A' ≤ c && c ≤ 'Z')

/-- A character matched by `[a-zA-Z0-9_-]`. -/
def isGoNameChar (c : Char) : Bool :=
  isGoLetter c || ('0' ≤ c && c ≤ '9') || c = '_' || c = '-'

/-- The anchored regular expression `^[a-zA-Z][a-zA-Z0-9_-]*$`
(`configNameRegex`). -/
def matchesConfigNameRegex (s : String) : Bool :=
  match s.toList with
  | [] => false
  | c :: rest => isGoLetter c && rest.all isGoNameChar

/-- Go `len` on a string: its UTF-8 byte length. -/
def goByteLen (s : String) : Nat :=
  (s.toList.map Char.utf8Size).sum

/-- `MaxConfigNameLength`. -/
def MaxConfigNameLength : Nat := 63

/-- Outcome of `ValidateConfigurationName`. -/
inductive ValidateResult where
  | ok
  | errEmpty
  | errTooLong
  | errInvalidChars
deriving DecidableEq, Repr

/-- `ValidateConfigurationName`: reject empty names, names longer than 63
bytes, and names not matching the name regular expression. -/
def ValidateConfigurationName (name : String) : ValidateResult :=
  if name = "" then .errEmpty
  else if goByteLen name > MaxConfigNameLength then .errTooLong
  else if matchesConfigNameRegex name = false then .errInvalidChars
  else .ok

/-- The naming rule exactly as the spec words it: a name matches
`^[A-Za-z][A-Za-z0-9_-]{0,62}$` (first char a letter, at most 63
characters total). Stated from the spec for comparison with
`ValidateConfigurationName`. -/
def specNameRule (s : String) : Bool :=
  match s.toList with
  | [] => false
  | c :: rest => isGoLetter c && rest.length ≤ 62 && rest.all isGoNameChar

/-! ## Profile store (pkg/gcloud/types.go)

The external gcloud CLI is modelled by the list of configurations it
holds plus one success oracle per mutating command. Every attempted
external call is recorded in an event trace. -/

/-- An attempted external call. -/
inductive Ev where
  | saveHistory (name : String)
  | create (name : String)
  | setProp (target key value : String)
  | activate (name : String)
  | delete (name : String)
  | sync
deriving DecidableEq, Repr

/-- The external store: its configurations and, for each mutating gcloud
command, whether that command would succeed. -/
structure Store where
  configs : List Configuration
  createOk : String → Bool
  setPropOk : String → String → String → Bool
  activateOk : String → Bool
  deleteOk : String → Bool

/-- `getActiveConfigurationFromList`: the first configuration marked
active. -/
def getActiveConfigurationFromList (configs : List Configuration) : Option Configuration :=
  configs.find? (·.isActive)

/-- `ConfigurationExists`: whether a configuration of this name is in the
store. -/
def configurationExists (configs : List Configuration) (name : String) : Bool :=
  configs.any (fun c => c.name = name)

/-- `GetConfigurationInfo`: the configuration of this name, if any. -/
def getConfigurationInfo (configs : List Configuration) (name : String) : Option Configuration :=
  configs.find? (fun c => c.name = name)

/-- `ActivateConfiguration`: run the activate command; on success exactly
the named configuration becomes active. -/
def activateConfiguration (st : Store) (name : String) : Bool × Store × List Ev :=
  if st.activateOk name then
    (true,
     { st with configs := st.configs.map (fun c => { c with isActive := c.name = name }) },
     [.activate name])
  else (false, st, [.activate name])

/-- Outcome of `CreateConfiguration`. -/
inductive CreateResult where
  | ok
  | errExists
  | errExternal
deriving DecidableEq, Repr

/-- `CreateConfiguration`: fail if the name already exists, otherwise run
the create command; on success a fresh inactive configuration is added. -/
def createConfiguration (st : Store) (name : String) : CreateResult × Store × List Ev :=
  if configurationExists st.configs name then (.errExists, st, [])
  else if st.createOk name then
    (.ok,
     { st with configs := st.configs ++ [{ name := name, isActive := false, properties := emptyProperties }] },
     [.create name])
  else (.errExternal, st, [.create name])

/-- Outcome of `DeleteConfiguration`. -/
inductive DeleteResult where
  | ok
  | errNotExist
  | errNoActive
  | errActiveProtected
  | errExternal
deriving DecidableEq, Repr

/-- `DeleteConfiguration`: fail if the name does not exist, if there is no
active configuration, or if the name is the active configuration;
otherwise run the delete command. -/
def deleteConfiguration (st : Store) (name : String) : DeleteResult × Store × List Ev :=
  if configurationExists st.configs name = false then (.errNotExist, st, [])
  else
    match getActiveConfigurationFromList st.configs with
    | none => (.errNoActive, st, [])
    | some active =>
      if active.name = name then (.errActiveProtected, st, [])
      else if st.deleteOk name then
        (.ok, { st with configs := st.configs.filter (fun c => !(c.name = name)) }, [.delete name])
      else (.errExternal, st, [.delete name])

/-- `cleanupConfiguration`: best-effort delete, reporting whether it
succeeded. -/
def cleanupConfiguration (st : Store) (name : String) : Bool × Store × List Ev :=
  match deleteConfiguration st name with
  | (.ok, st1, tr) => (true, st1, tr)
  | (_, st1, tr) => (false, st1, tr)

/-- Update one property of a configuration, by gcloud property key. -/
def setConfigProperty (c : Configuration) (key value : String) : Configuration :=
  if key = "account" then
    { c with properties := { c.properties with core := { c.properties.core with account := value } } }
  else if key = "project" then
    { c with properties := { c.properties with core := { c.properties.core with project := value } } }
  else if key = "compute/region" then
    { c with properties := { c.properties with compute := { c.properties.compute with region := value } } }
  else if key = "compute/zone" then
    { c with properties := { c.properties with compute := { c.properties.compute with zone := value } } }
  else c

/-- One conditional property copy: skip empty values, otherwise run the
set command against the target configuration; `none` is a hard failure. -/
def copyStep (st : Store) (target key value : String) : Option (Store × List Ev) :=
  if value = "" then some (st, [])
  else if st.setPropOk target key value then
    some ({ st with configs := st.configs.map (fun c => if c.name = target then setConfigProperty c key value else c) },
          [.setProp target key value])
  else none

/-- `copyConfigProperties`: copy each non-empty property of `source` to
`targetName`, in order account, project, compute/region, compute/zone,
stopping at the first failure. -/
def copyConfigProperties (source : Configuration) (targetName : String) (st : Store) :
    Option (Store × List Ev) := do
  let (st1, t1) ← copyStep st targetName "account" source.properties.core.account
  let (st2, t2) ← copyStep st1 targetName "project" source.properties.core.project
  let (st3, t3) ← copyStep st2 targetName "compute/region" source.properties.compute.region
  let (st4, t4) ← copyStep st3 targetName "compute/zone" source.properties.compute.zone
  return (st4, t1 ++ t2 ++ t3 ++ t4)

/-- Outcome of `RenameConfiguration`. Failure constructors after the
create step carry whether the best-effort cleanup delete succeeded. -/
inductive RenameResult where
  | ok
  | errOldMissing
  | errNewExists
  | errCreateFailed
  | errCopyFailed (cleanupOk : Bool)
  | errActivateFailed (cleanupOk : Bool)
  | errDeleteOldFailed
deriving DecidableEq, Repr

/-- `RenameConfiguration`: check old exists and new does not, snapshot
old, create new, copy properties (cleanup new on failure), activate new
if old was active (cleanup new on failure), then delete old; a failure of
the final delete is returned with both configurations left in place. -/
def renameConfiguration (st : Store) (oldName newName : String) : RenameResult × Store × List Ev :=
  if configurationExists st.configs oldName = false then (.errOldMissing, st, [])
  else if configurationExists st.configs newName then (.errNewExists, st, [])
  else
    match getConfigurationInfo st.configs oldName with
    | none => (.errOldMissing, st, [])
    | some oldConfig =>
      match createConfiguration st newName with
      | (.errExists, st1, tr1) => (.errNewExists, st1, tr1)
      | (.errExternal, st1, tr1) => (.errCreateFailed, st1, tr1)
      | (.ok, st1, tr1) =>
        match copyConfigProperties oldConfig newName st1 with
        | none =>
          match cleanupConfiguration st1 newName with
          | (cOk, st2, tr2) => (.errCopyFailed cOk, st2, tr1 ++ tr2)
        | some (st2, tr2) =>
          if oldConfig.isActive then
            match activateConfiguration st2 newName with
            | (false, st3, tr3) =>
              match cleanupConfiguration st3 newName with
              | (cOk, st4, tr4) => (.errActivateFailed cOk, st4, tr1 ++ tr2 ++ tr3 ++ tr4)
            | (true, st3, tr3) =>
              match deleteConfiguration st3 oldName with
              | (.ok, st4, tr4) => (.ok, st4, tr1 ++ tr2 ++ tr3 ++ tr4)
              | (_, st4, tr4) => (.errDeleteOldFailed, st4, tr1 ++ tr2 ++ tr3 ++ tr4)
          else
            match deleteConfiguration st2 oldName with
            | (.ok, st3, tr3) => (.ok, st3, tr1 ++ tr2 ++ tr3)
            | (_, st3, tr3) => (.errDeleteOldFailed, st3, tr1 ++ tr2 ++ tr3)

/-! ## Switch orchestrator (cmd/root.go switchConfiguration) -/

/-- The world a switch invocation sees: the store, the history file, and
whether a history write or an ADC sync would succeed. -/
structure World where
  store : Store
  history : Option String
  historyWriteOk : Bool
  syncOk : Bool

/-- Outcome of `switchConfiguration`. -/
inductive SwitchResult where
  | ok
  | errNoActive
  | errNotFound
  | errActivateFailed
  | errSyncFailed
deriving DecidableEq, Repr

/-- `switchConfiguration`: resolve the current active configuration, fail
with not-found if the target does not exist, succeed immediately if the
target is already active, save the current name to history (a failed
write only warns), activate the target (hard failure), and, when the
sync-ADC flag is set, sync credentials afterwards (a failure is returned
as an error). -/
def switchConfiguration (syncADC : Bool) (targetName : String) (w : World) :
    SwitchResult × World × List Ev :=
  match getActiveConfigurationFromList w.store.configs with
  | none => (.errNoActive, w, [])
  | some currentConfig =>
    if configurationExists w.store.configs targetName = false then (.errNotFound, w, [])
    else if currentConfig.name = targetName then (.ok, w, [])
    else
      let w1 : World :=
        if w.historyWriteOk then { w with history := SavePreviousConfig currentConfig.name w.history }
        else w
      match activateConfiguration w1.store targetName with
      | (false, st2, tr2) =>
        (.errActivateFailed, { w1 with store := st2 }, .saveHistory currentConfig.name :: tr2)
      | (true, st2, tr2) =>
        let w2 := { w1 with store := st2 }
        if syncADC then
          (if w2.syncOk then .ok else .errSyncFailed, w2,
           .saveHistory currentConfig.name :: tr2 ++ [.sync])
        else (.ok, w2, .saveHistory currentConfig.name :: tr2)

/-! ## Directory scope resolver (pkg/local/local.go)

A directory is a list of path components, deepest first; `[]` is the
filesystem root, whose parent is itself. The filesystem is a map from a
directory to the contents of its marker file, `none` when absent. -/

/-- Outcome of `findLocalConfigInPath`. -/
inductive FindResult where
  | found (name : String) (dir : List String)
  | emptyFile (dir : List String)
  | notFound
deriving DecidableEq, Repr

/-- Reading the marker file found in `dir`: its trimmed contents, or the
empty-file error when they trim to nothing. -/
def readMarkerResult (dir : List String) (data : String) : FindResult :=
  let name := trimSpace data
  if name = "" then .emptyFile dir else .found name dir

/-- `findLocalConfigInPath`: look for the marker file in the start
directory; if present, return its trimmed contents (an empty-after-trim
file is a distinct error naming the directory); if absent, move to the
parent directory and repeat, failing with not-found once the root — the
directory that is its own parent — has been checked. -/
def findLocalConfigInPath (fs : List String → Option String) : List String → FindResult
  | [] =>
    match fs [] with
    | some data => readMarkerResult [] data
    | none => .notFound
  | d :: parent =>
    match fs (d :: parent) with
    | some data => readMarkerResult (d :: parent) data
    | none => findLocalConfigInPath fs parent

/-! ## Create command (cmd/create.go runCreate) -/

/-- Outcome of `runCreate`. -/
inductive CreateCmdResult where
  | ok
  | errGcloudMissing
  | errAlreadyExists
  | errCreateFailed
  | errActivateFailed
deriving DecidableEq, Repr

/-- `runCreate`: check gcloud is installed, create the configuration with
the name argument passed through unchanged (no name validation), and
activate it when the activate flag is set. -/
def runCreate (gcloudInstalled : Bool) (activateFlag : Bool) (st : Store) (configName : String) :
    CreateCmdResult × Store × List Ev :=
  if gcloudInstalled = false then (.errGcloudMissing, st, [])
  else
    match createConfiguration st configName with
    | (.errExists, st1, tr1) => (.errAlreadyExists, st1, tr1)
    | (.errExternal, st1, tr1) => (.errCreateFailed, st1, tr1)
    | (.ok, st1, tr1) =>
      if activateFlag then
        match activateConfiguration st1 configName with
        | (false, st2, tr2) => (.errActivateFailed, st2, tr1 ++ tr2)
        | (true, st2, tr2) => (.ok, st2, tr1 ++ tr2)
      else (.ok, st1, tr1)

/-! ## Concrete worlds used by witnesses -/

/-- A store holding an active `default` configuration and an inactive
`staging` configuration, with every external command succeeding. -/
def baseStore : Store :=
  { configs :=
      [{ name := "default", isActive := true, properties := emptyProperties },
       { name := "staging", isActive := false, properties := emptyProperties }]
    createOk := fun _ => true
    setPropOk := fun _ _ _ => true
    activateOk := fun _ => true
    deleteOk := fun _ => true }

/-- A world over `baseStore` with no history file and all side effects
succeeding. -/
def baseWorld : World :=
  { store := baseStore, history := none, historyWriteOk := true, syncOk := true }

/-! ## Theorems -/

/-- C8: saving a name to history and reading it back returns the trimmed
name when the trimmed name is non-empty, and fails with not-found when it
is empty; in particular saving the empty string is indistinguishable from
an absent history file. -/
theorem save_then_get_previous (n : String) (file : Option String) :
    (trimSpace n ≠ "" →
      GetPreviousConfig (SavePreviousConfig n file) = .found (trimSpace n)) ∧
    (trimSpace n = "" →
      GetPreviousConfig (SavePreviousConfig n file) = .notFound) ∧
    GetPreviousConfig (SavePreviousConfig "" file) = .notFound ∧
    GetPreviousConfig none = .notFound := by
  refine ⟨fun h => ?_, fun h => ?_, ?_, rfl⟩
  · simp [GetPreviousConfig, SavePreviousConfig, h]
  · simp [GetPreviousConfig, SavePreviousConfig, h]
  · rw [show SavePreviousConfig "" file = some "" from rfl]
    decide

/-- Witness for C8 at the concrete name `" dev "`. -/
theorem save_then_get_previous_witness :
    GetPreviousConfig (SavePreviousConfig " dev " none) = HistResult.found "dev" := by
  have h := (save_then_get_previous " dev " none).1 (by decide)
  rw [show trimSpace " dev " = "dev" from by decide] at h
  exact h

/-- C1: when the target exists and is already the active configuration,
the switch succeeds, attempts no external call, and leaves the world
(history file included) unchanged. -/
theorem switch_self_is_noop (syncADC : Bool) (target : String) (w : World)
    (cur : Configuration)
    (hact : getActiveConfigurationFromList w.store.configs = some cur)
    (hex : configurationExists w.store.configs target = true)
    (heq : cur.name = target) :
    switchConfiguration syncADC target w = (.ok, w, []) := by
  simp [switchConfiguration, hact, hex, heq]

/-- Witness for C1: switching to the already-active `default`. -/
theorem switch_self_is_noop_witness :
    switchConfiguration false "default" baseWorld = (SwitchResult.ok, baseWorld, []) :=
  switch_self_is_noop false "default" baseWorld
    { name := "default", isActive := true, properties := emptyProperties }
    (by decide) (by decide) rfl

/-- C3: when the target does not exist, the switch fails with not-found,
attempts no external call, and leaves the world unchanged. -/
theorem switch_notfound_frame (syncADC : Bool) (target : String) (w : World)
    (cur : Configuration)
    (hact : getActiveConfigurationFromList w.store.configs = some cur)
    (hex : configurationExists w.store.configs target = false) :
    switchConfiguration syncADC target w = (.errNotFound, w, []) := by
  simp [switchConfiguration, hact, hex]

/-- Witness for C3: switching to the nonexistent `missing`. -/
theorem switch_notfound_frame_witness :
    switchConfiguration false "missing" baseWorld = (SwitchResult.errNotFound, baseWorld, []) :=
  switch_notfound_frame false "missing" baseWorld
    { name := "default", isActive := true, properties := emptyProperties }
    (by decide) (by decide)

/-- C2: when the switch reaches the mutation phase, the history write for
the previous active name is attempted strictly before the activation
call; a failed history write does not stop activation (the call trace and
the result do not depend on `historyWriteOk`); a failed activation makes
the switch fail hard, while a successful activation (without the sync
flag) makes it succeed. -/
theorem switch_history_before_activation (syncADC : Bool) (target : String) (w : World)
    (cur : Configuration)
    (hact : getActiveConfigurationFromList w.store.configs = some cur)
    (hex : configurationExists w.store.configs target = true)
    (hne : cur.name ≠ target) :
    (∃ rest, (switchConfiguration syncADC target w).2.2 =
        Ev.saveHistory cur.name :: Ev.activate target :: rest) ∧
    (w.store.activateOk target = false →
      (switchConfiguration syncADC target w).1 = .errActivateFailed) ∧
    (w.store.activateOk target = true → syncADC = false →
      (switchConfiguration syncADC target w).1 = .ok) := by
  have hstore : (if w.historyWriteOk then
      { w with history := SavePreviousConfig cur.name w.history } else w).store = w.store := by
    split <;> rfl
  refine ⟨?_, fun ha => ?_, fun ha hs => ?_⟩
  · cases ha : w.store.activateOk target
    · simp [switchConfiguration, hact, hex, hne, activateConfiguration, hstore, ha]
    · cases syncADC <;>
        simp [switchConfiguration, hact, hex, hne, activateConfiguration, hstore, ha]
  · simp [switchConfiguration, hact, hex, hne, activateConfiguration, hstore, ha]
  · subst hs
    simp [switchConfiguration, hact, hex, hne, activateConfiguration, hstore, ha]

/-- Witness for C2: switching from `default` to `staging`. -/
theorem switch_history_before_activation_witness :
    (∃ rest, (switchConfiguration false "staging" baseWorld).2.2 =
        Ev.saveHistory "default" :: Ev.activate "staging" :: rest) ∧
    (switchConfiguration false "staging" baseWorld).1 = SwitchResult.ok := by
  have h := switch_history_before_activation false "staging" baseWorld
    { name := "default", isActive := true, properties := emptyProperties }
    (by decide) (by decide) (by decide)
  exact ⟨h.1, h.2.2 (by decide) rfl⟩

/-- C5 counterexample: profiles `default` (active) and `staging`, sync
flag set, activation succeeding, credential sync failing — the switch
returns an error, so a sync failure does fail the overall operation. -/
theorem switch_sync_failure_fails_cex :
    (switchConfiguration true "staging" { baseWorld with syncOk := false }).1 =
      SwitchResult.errSyncFailed ∧
    (switchConfiguration true "staging" { baseWorld with syncOk := false }).1 ≠
      SwitchResult.ok := by
  decide

/-- C5 (amended): with the sync flag set and activation succeeding, the
sync call is attempted strictly after the activation call; a sync failure
does not roll back the completed activation (the target ends active) but
it is propagated as an error of the whole switch, while a sync success
yields overall success. -/
theorem switch_sync_after_activation (target : String) (w : World) (cur : Configuration)
    (hact : getActiveConfigurationFromList w.store.configs = some cur)
    (hex : configurationExists w.store.configs target = true)
    (hne : cur.name ≠ target)
    (ha : w.store.activateOk target = true) :
    (switchConfiguration true target w).2.2 =
      [Ev.saveHistory cur.name, Ev.activate target, Ev.sync] ∧
    (∃ c, c ∈ (switchConfiguration true target w).2.1.store.configs ∧
      c.name = target ∧ c.isActive = true) ∧
    (w.syncOk = false → (switchConfiguration true target w).1 = .errSyncFailed) ∧
    (w.syncOk = true → (switchConfiguration true target w).1 = .ok) := by
  obtain ⟨c, hmem, hcname⟩ : ∃ c, c ∈ w.store.configs ∧ c.name = target := by
    have := List.any_eq_true.mp hex
    obtain ⟨c, hc1, hc2⟩ := this
    exact ⟨c, hc1, of_decide_eq_true hc2⟩
  have hconf : (switchConfiguration true target w).2.1.store.configs =
      w.store.configs.map (fun c => { c with isActive := c.name = target }) := by
    cases hhw : w.historyWriteOk <;>
      simp [switchConfiguration, hact, hex, hne, activateConfiguration, ha, hhw]
  refine ⟨?_, ?_, fun hs => ?_, fun hs => ?_⟩
  · cases hhw : w.historyWriteOk <;>
      simp [switchConfiguration, hact, hex, hne, activateConfiguration, ha, hhw]
  · rw [hconf]
    refine ⟨{ c with isActive := c.name = target }, List.mem_map_of_mem _ hmem, hcname, ?_⟩
    simp [hcname]
  · cases hhw : w.historyWriteOk <;>
      simp [switchConfiguration, hact, hex, hne, activateConfiguration, ha, hhw, hs]
  · cases hhw : w.historyWriteOk <;>
      simp [switchConfiguration, hact, hex, hne, activateConfiguration, ha, hhw, hs]

/-- Witness for the amended C5: switching from `default` to `staging`
with the sync flag set and sync succeeding. -/
theorem switch_sync_after_activation_witness :
    (switchConfiguration true "staging" baseWorld).2.2 =
      [Ev.saveHistory "default", Ev.activate "staging", Ev.sync] ∧
    (switchConfiguration true "staging" baseWorld).1 = SwitchResult.ok := by
  have h := switch_sync_after_activation "staging" baseWorld
    { name := "default", isActive := true, properties := emptyProperties }
    (by decide) (by decide) (by decide) (by decide)
  exact ⟨h.1, h.2.2.2 rfl⟩

/-- Walking up from `rest ++ a` when every directory strictly below the
marker directory `a` has no marker file reaches `a` and reads its marker
there. -/
theorem findLocal_walk_to_marker (fs : List String → Option String)
    (a : List String) (c : String) (hfa : fs a = some c) :
    ∀ rest : List String,
      (∀ d, d ≠ a → a <:+ d → d <:+ rest ++ a → fs d = none) →
      findLocalConfigInPath fs (rest ++ a) =
        (if trimSpace c = "" then FindResult.emptyFile a else .found (trimSpace c) a) := by
  intro rest
  induction rest with
  | nil =>
    intro _
    show findLocalConfigInPath fs a = _
    cases a with
    | nil => simp [findLocalConfigInPath, hfa, readMarkerResult]
    | cons x xs => simp [findLocalConfigInPath, hfa, readMarkerResult]
  | cons r rs ih =>
    intro h
    have hne : (r :: (rs ++ a)) ≠ a := by
      intro he
      have := congrArg List.length he
      simp at this
      omega
    have h0 : fs (r :: (rs ++ a)) = none :=
      h _ hne ⟨r :: rs, rfl⟩ (List.suffix_refl _)
    show findLocalConfigInPath fs (r :: (rs ++ a)) = _
    rw [findLocalConfigInPath, h0]
    exact ih (fun d hd hsa hsr => h d hd hsa (hsr.trans (List.suffix_cons r (rs ++ a))))

/-- Walking up from a directory on whose whole path to the root no marker
file exists ends in not-found. -/
theorem findLocal_no_marker (fs : List String → Option String) :
    ∀ start : List String, (∀ d, d <:+ start → fs d = none) →
      findLocalConfigInPath fs start = .notFound := by
  intro start
  induction start with
  | nil =>
    intro h
    rw [findLocalConfigInPath, h [] (List.suffix_refl _)]
  | cons r rs ih =>
    intro h
    rw [findLocalConfigInPath, h _ (List.suffix_refl _)]
    exact ih (fun d hd => h d (hd.trans (List.suffix_cons r rs)))

/-- C6: if the only marker file in the tree is at `a` and is non-empty
after trimming, the walk from any descendant of `a` returns the marker
contents and the directory `a`; if no directory on the path from the
start to the filesystem root has a marker, the walk (which stops at the
root, the directory that is its own parent) returns not-found. -/
theorem findLocalConfigInPath_ancestor_resolution (fs : List String → Option String)
    (a start : List String) (c : String) :
    (fs a = some c → trimSpace c ≠ "" → (∀ d, d ≠ a → fs d = none) → a <:+ start →
      findLocalConfigInPath fs start = .found (trimSpace c) a) ∧
    ((∀ d, d <:+ start → fs d = none) → findLocalConfigInPath fs start = .notFound) := by
  constructor
  · intro hfa hne hnone hsuf
    obtain ⟨rest, rfl⟩ := hsuf
    rw [findLocal_walk_to_marker fs a c hfa rest (fun d hd _ _ => hnone d hd)]
    simp [hne]
  · exact findLocal_no_marker fs start

/-- Witness for C6: a marker `project-config` at directory `/proj`,
searched from `/proj/src/deep` (components stored deepest-first). -/
theorem findLocalConfigInPath_ancestor_resolution_witness :
    findLocalConfigInPath
      (fun d => if d = ["proj"] then some "project-config\n" else none)
      ["deep", "src", "proj"] = FindResult.found "project-config" ["proj"] := by
  have h := (findLocalConfigInPath_ancestor_resolution
      (fun d => if d = ["proj"] then some "project-config\n" else none)
      ["proj"] ["deep", "src", "proj"] "project-config\n").1
      (by decide) (by decide) (fun d hd => if_neg hd) ⟨["deep", "src"], rfl⟩
  rw [show trimSpace "project-config\n" = "project-config" from by decide] at h
  exact h

/-- C7: when the nearest marker file on the upward walk is at `a` and its
contents trim to the empty string, the walk fails with the empty-marker
error naming `a` — an outcome distinct from not-found — and does not
continue past `a` to ancestor directories (nothing is assumed about
markers above `a`). -/
theorem findLocalConfigInPath_empty_marker (fs : List String → Option String)
    (a start : List String) (c : String)
    (hfa : fs a = some c) (hc : trimSpace c = "")
    (hbetween : ∀ d, d ≠ a → a <:+ d → d <:+ start → fs d = none)
    (hsuf : a <:+ start) :
    findLocalConfigInPath fs start = .emptyFile a ∧
    FindResult.emptyFile a ≠ FindResult.notFound := by
  obtain ⟨rest, rfl⟩ := hsuf
  refine ⟨?_, by simp⟩
  rw [findLocal_walk_to_marker fs a c hfa rest hbetween]
  simp [hc]

/-- Witness for C7: a whitespace-only marker at `/mid`, searched from
`/mid/leaf`. -/
theorem findLocalConfigInPath_empty_marker_witness :
    findLocalConfigInPath
      (fun d => if d = ["mid"] then some " \n" else none)
      ["leaf", "mid"] = FindResult.emptyFile ["mid"] :=
  (findLocalConfigInPath_empty_marker
      (fun d => if d = ["mid"] then some " \n" else none)
      ["mid"] ["leaf", "mid"] " \n"
      (by decide) (by decide) (fun d hd _ _ => if_neg hd) ⟨["leaf"], rfl⟩).1

/-- Characters matched by the name regular expression are ASCII. -/
theorem nameChar_ascii (c : Char) (h : isGoNameChar c = true) : c ≤ '\x7F' := by
  simp [isGoNameChar, isGoLetter] at h
  rcases h with (((⟨_, h2⟩ | ⟨_, h2⟩) | ⟨_, h2⟩) | h) | h
  · exact Char.le_trans h2 (by decide)
  · exact Char.le_trans h2 (by decide)
  · exact Char.le_trans h2 (by decide)
  · subst h; decide
  · subst h; decide

/-- An ASCII character takes one UTF-8 byte. -/
theorem utf8Size_eq_one_of_ascii (c : Char) (h : c ≤ '\x7F') : c.utf8Size = 1 := by
  have h' : c.val ≤ '\x7F'.val := h
  simp only [Char.utf8Size]
  split
  · rfl
  · exact absurd h' (by assumption)

/-- A list of one-byte characters has as many bytes as characters. -/
theorem sum_utf8_of_ascii (l : List Char) (h : ∀ x ∈ l, x.utf8Size = 1) :
    (l.map Char.utf8Size).sum = l.length := by
  induction l with
  | nil => rfl
  | cons a t ih =>
    simp only [List.map_cons, List.sum_cons, h a (List.mem_cons_self a t), List.length_cons,
      ih (fun x hx => h x (List.mem_cons_of_mem a hx))]
    omega

/-- C9: `ValidateConfigurationName` accepts a name exactly when it
matches the naming rule `^[A-Za-z][A-Za-z0-9_-]{0,62}$` — first character
a letter, at most 63 characters, every further character a letter, digit,
hyphen or underscore. -/
theorem validateConfigurationName_iff_spec (name : String) :
    ValidateConfigurationName name = .ok ↔ specNameRule name = true := by
  unfold ValidateConfigurationName specNameRule MaxConfigNameLength
  cases hl : name.toList with
  | nil =>
    have hname : name = "" := by
      cases name with
      | mk data =>
        simp [String.toList] at hl
        simp [hl]
    subst hname
    decide
  | cons c rest =>
    have hne : ¬(name = "") := by
      intro h
      subst h
      simp [String.toList] at hl
    rw [if_neg hne]
    rw [show matchesConfigNameRegex name = (isGoLetter c && rest.all isGoNameChar) from by
      unfold matchesConfigNameRegex
      rw [hl]]
    rw [show goByteLen name = Char.utf8Size c + (rest.map Char.utf8Size).sum from by
      unfold goByteLen
      rw [hl]
      simp]
    by_cases hreg : (isGoLetter c && rest.all isGoNameChar) = true
    · obtain ⟨hc, hrest⟩ := Bool.and_eq_true_iff.mp hreg
      have hc1 : Char.utf8Size c = 1 :=
        utf8Size_eq_one_of_ascii c (nameChar_ascii c (by simp [isGoNameChar, hc]))
      have hsum : (rest.map Char.utf8Size).sum = rest.length :=
        sum_utf8_of_ascii rest (fun x hx =>
          utf8Size_eq_one_of_ascii x (nameChar_ascii x (List.all_eq_true.mp hrest x hx)))
      rw [hc1, hsum]
      by_cases hlen : rest.length ≤ 62
      · rw [if_neg (by omega)]
        simp [hreg, hc, hrest, hlen]
      · rw [if_pos (by omega)]
        simp [hlen]
    · have hsplit : isGoLetter c = false ∨ rest.all isGoNameChar = false := by
        cases h1 : isGoLetter c with
        | false => exact Or.inl rfl
        | true =>
          cases h2 : rest.all isGoNameChar with
          | false => exact Or.inr rfl
          | true => exact absurd (by rw [h1, h2]; rfl) hreg
      constructor
      · intro hok
        exfalso
        by_cases hlong : Char.utf8Size c + (rest.map Char.utf8Size).sum > 63
        · rw [if_pos hlong] at hok
          exact ValidateResult.noConfusion hok
        · rw [if_neg hlong, if_pos (by simpa using hreg)] at hok
          exact ValidateResult.noConfusion hok
      · intro hspec
        exfalso
        rcases hsplit with h1 | h1
        · simp [h1] at hspec
        · simp [h1] at hspec

/-! ## Helper lemmas about the store, used for the rename theorem -/

/-- The name and active flag of each configuration, in order. -/
def storeShape (l : List Configuration) : List (String × Bool) :=
  l.map (fun c => (c.name, c.isActive))

/-- Existence of a name only depends on the store shape. -/
theorem configurationExists_shape (l : List Configuration) (x : String) :
    configurationExists l x = (storeShape l).any (fun p => p.1 = x) := by
  induction l with
  | nil => rfl
  | cons a tl ih =>
    simp only [configurationExists, storeShape, List.any_cons, List.map_cons] at *
    rw [ih]

/-- A map that preserves names and active flags preserves the shape. -/
theorem storeShape_map (l : List Configuration) (g : Configuration → Configuration)
    (hg : ∀ c, (g c).name = c.name ∧ (g c).isActive = c.isActive) :
    storeShape (l.map g) = storeShape l := by
  induction l with
  | nil => rfl
  | cons a tl ih =>
    show ((g a).name, (g a).isActive) :: storeShape (tl.map g) = (a.name, a.isActive) :: storeShape tl
    rw [(hg a).1, (hg a).2, ih]

/-- Equal shapes decide existence identically. -/
theorem configurationExists_of_shape (l l' : List Configuration)
    (h : storeShape l = storeShape l') (x : String) :
    configurationExists l x = configurationExists l' x := by
  rw [configurationExists_shape, configurationExists_shape, h]

/-- `setConfigProperty` changes neither the name nor the active flag. -/
theorem setConfigProperty_frame (c : Configuration) (key value : String) :
    (setConfigProperty c key value).name = c.name ∧
    (setConfigProperty c key value).isActive = c.isActive := by
  unfold setConfigProperty
  split
  · exact ⟨rfl, rfl⟩
  split
  · exact ⟨rfl, rfl⟩
  split
  · exact ⟨rfl, rfl⟩
  split
  · exact ⟨rfl, rfl⟩
  · exact ⟨rfl, rfl⟩

/-- A successful `copyStep` keeps the store shape and all oracles. -/
theorem copyStep_spec (st : Store) (t k v : String) (h : st.setPropOk t k v = true) :
    ∃ st' tr, copyStep st t k v = some (st', tr) ∧
      storeShape st'.configs = storeShape st.configs ∧
      st'.createOk = st.createOk ∧ st'.setPropOk = st.setPropOk ∧
      st'.activateOk = st.activateOk ∧ st'.deleteOk = st.deleteOk := by
  by_cases hv : v = ""
  · exact ⟨st, [], by simp [copyStep, hv], rfl, rfl, rfl, rfl, rfl⟩
  · refine ⟨{ st with configs :=
        st.configs.map (fun c => if c.name = t then setConfigProperty c k v else c) },
      [.setProp t k v], by simp [copyStep, hv, h], ?_, rfl, rfl, rfl, rfl⟩
    exact storeShape_map _ _ (fun c => by
      by_cases hc : c.name = t
      · simpa [hc] using setConfigProperty_frame c k v
      · simp [hc])

/-- A full property copy with an always-succeeding set-property oracle
succeeds and keeps the store shape and all oracles. -/
theorem copyConfigProperties_spec (source : Configuration) (t : String) (st : Store)
    (hs : ∀ k v, st.setPropOk t k v = true) :
    ∃ st' tr, copyConfigProperties source t st = some (st', tr) ∧
      storeShape st'.configs = storeShape st.configs ∧
      st'.createOk = st.createOk ∧ st'.setPropOk = st.setPropOk ∧
      st'.activateOk = st.activateOk ∧ st'.deleteOk = st.deleteOk := by
  obtain ⟨s1, t1, he1, hsh1, hc1, hp1, ha1, hd1⟩ :=
    copyStep_spec st t "account" source.properties.core.account (hs _ _)
  obtain ⟨s2, t2, he2, hsh2, hc2, hp2, ha2, hd2⟩ :=
    copyStep_spec s1 t "project" source.properties.core.project (by rw [hp1]; exact hs _ _)
  obtain ⟨s3, t3, he3, hsh3, hc3, hp3, ha3, hd3⟩ :=
    copyStep_spec s2 t "compute/region" source.properties.compute.region
      (by rw [hp2, hp1]; exact hs _ _)
  obtain ⟨s4, t4, he4, hsh4, hc4, hp4, ha4, hd4⟩ :=
    copyStep_spec s3 t "compute/zone" source.properties.compute.zone
      (by rw [hp3, hp2, hp1]; exact hs _ _)
  refine ⟨s4, t1 ++ t2 ++ t3 ++ t4, ?_, ?_, ?_, ?_, ?_, ?_⟩
  · simp [copyConfigProperties, he1, he2, he3, he4]
  · rw [hsh4, hsh3, hsh2, hsh1]
  · rw [hc4, hc3, hc2, hc1]
  · rw [hp4, hp3, hp2, hp1]
  · rw [ha4, ha3, ha2, ha1]
  · rw [hd4, hd3, hd2, hd1]

/-- In a store containing the target name, activation makes the first
configuration of that name the active one. -/
theorem getActive_after_activate (l : List Configuration) (nm : String)
    (hex : configurationExists l nm = true) :
    ∃ a, getActiveConfigurationFromList
        (l.map (fun c => { c with isActive := c.name = nm })) = some a ∧
      a.name = nm ∧ a.isActive = true := by
  induction l with
  | nil => simp [configurationExists] at hex
  | cons b tl ih =>
    by_cases hb : b.name = nm
    · refine ⟨{ b with isActive := decide (b.name = nm) }, ?_, hb, by simp [hb]⟩
      simp [getActiveConfigurationFromList, List.find?_cons, hb]
    · have hex' : configurationExists tl nm = true := by
        simpa [configurationExists, hb] using hex
      obtain ⟨a, ha, hn, hia⟩ := ih hex'
      refine ⟨a, ?_, hn, hia⟩
      simpa [getActiveConfigurationFromList, List.find?_cons, hb] using ha

/-- Filtering out a name removes it from the store. -/
theorem configurationExists_filter_self (l : List Configuration) (x : String) :
    configurationExists (l.filter (fun c => !(c.name = x))) x = false := by
  induction l with
  | nil => rfl
  | cons a tl ih =>
    by_cases ha : a.name = x
    · simp [List.filter_cons, ha, ih]
    · simp [List.filter_cons, ha, configurationExists, ih]

/-- A name-preserving map preserves existence. -/
theorem configurationExists_map (l : List Configuration) (g : Configuration → Configuration)
    (hg : ∀ c, (g c).name = c.name) (x : String) :
    configurationExists (l.map g) x = configurationExists l x := by
  induction l with
  | nil => rfl
  | cons a tl ih =>
    simp only [List.map_cons, configurationExists, List.any_cons, hg a] at *
    rw [ih]

/-- A found configuration is a member with the right name, so it exists. -/
theorem getConfigurationInfo_spec (l : List Configuration) (x : String) (c : Configuration)
    (h : getConfigurationInfo l x = some c) :
    c ∈ l ∧ c.name = x ∧ configurationExists l x = true := by
  have hmem : c ∈ l := List.mem_of_find?_eq_some h
  have hname : c.name = x := by
    have := List.find?_some h
    exact of_decide_eq_true this
  refine ⟨hmem, hname, ?_⟩
  unfold configurationExists
  exact List.any_eq_true.mpr ⟨c, hmem, by simp [hname]⟩

/-- The store after the external create command added a fresh
configuration. -/
def afterCreate (st : Store) (nm : String) : Store :=
  { st with configs :=
      st.configs ++ [{ name := nm, isActive := false, properties := emptyProperties }] }

/-- The store after the external activate command succeeded. -/
def activatedStore (st : Store) (nm : String) : Store :=
  { st with configs := st.configs.map (fun c => { c with isActive := c.name = nm }) }

/-- The store after the external delete command removed a name. -/
def removedStore (st : Store) (nm : String) : Store :=
  { st with configs := st.configs.filter (fun c => !(c.name = nm)) }

/-- C4: renaming when the old configuration is active, with the external
create, set-property and activate commands succeeding. If the final
delete of the old name also succeeds, the rename succeeds, the new name
exists and is active, the old name is absent, and the activate call for
the new name precedes the delete call for the old name in the call
trace. If the final delete fails, an error is returned, both names still
exist, and the new one is active. -/
theorem renameConfiguration_active_old (st : Store) (oldName newName : String)
    (oldC : Configuration)
    (hinfo : getConfigurationInfo st.configs oldName = some oldC)
    (hnew : configurationExists st.configs newName = false)
    (hactv : oldC.isActive = true)
    (hcr : st.createOk newName = true)
    (hs : ∀ k v, st.setPropOk newName k v = true)
    (ha : st.activateOk newName = true) :
    (st.deleteOk oldName = true →
      ∃ stF pre, renameConfiguration st oldName newName =
          (.ok, stF, pre ++ [Ev.activate newName, Ev.delete oldName]) ∧
        (∃ c, c ∈ stF.configs ∧ c.name = newName ∧ c.isActive = true) ∧
        configurationExists stF.configs oldName = false) ∧
    (st.deleteOk oldName = false →
      ∃ stF pre, renameConfiguration st oldName newName =
          (.errDeleteOldFailed, stF, pre ++ [Ev.activate newName, Ev.delete oldName]) ∧
        (∃ c, c ∈ stF.configs ∧ c.name = newName ∧ c.isActive = true) ∧
        configurationExists stF.configs oldName = true ∧
        configurationExists stF.configs newName = true) := by
  obtain ⟨hmem, hname, hexold⟩ := getConfigurationInfo_spec st.configs oldName oldC hinfo
  have hcreate : createConfiguration st newName = (.ok, afterCreate st newName, [.create newName]) := by
    simp [createConfiguration, hnew, hcr, afterCreate]
  obtain ⟨st2, tCopy, hcopy, hsh2, hc2, hp2, ha2, hd2⟩ :=
    copyConfigProperties_spec oldC newName (afterCreate st newName) (fun k v => hs k v)
  have hexold2 : configurationExists st2.configs oldName = true := by
    rw [configurationExists_of_shape _ _ hsh2]
    simp only [afterCreate, configurationExists, List.any_append]
    rw [show st.configs.any (fun c => decide (c.name = oldName)) = true from hexold]
    rfl
  have hexnew2 : configurationExists st2.configs newName = true := by
    rw [configurationExists_of_shape _ _ hsh2]
    simp [afterCreate, configurationExists, List.any_append]
  have hact2 : st2.activateOk newName = true := by rw [ha2]; exact ha
  have hactivate : activateConfiguration st2 newName =
      (true, activatedStore st2 newName, [.activate newName]) := by
    simp [activateConfiguration, hact2, activatedStore]
  obtain ⟨aAct, hfind3, hanm, hax⟩ := getActive_after_activate st2.configs newName hexnew2
  have hfind3' : getActiveConfigurationFromList (activatedStore st2 newName).configs = some aAct :=
    hfind3
  have hexold3 : configurationExists (activatedStore st2 newName).configs oldName = true := by
    rw [show (activatedStore st2 newName).configs =
        st2.configs.map (fun c => { c with isActive := c.name = newName }) from rfl]
    rw [configurationExists_map st2.configs
      (fun c => { c with isActive := c.name = newName }) (fun c => rfl) oldName]
    exact hexold2
  have hexnew3 : configurationExists (activatedStore st2 newName).configs newName = true := by
    rw [show (activatedStore st2 newName).configs =
        st2.configs.map (fun c => { c with isActive := c.name = newName }) from rfl]
    rw [configurationExists_map st2.configs
      (fun c => { c with isActive := c.name = newName }) (fun c => rfl) newName]
    exact hexnew2
  have hneqold : ¬(oldName = newName) := by
    intro h
    rw [h, hnew] at hexold
    cases hexold
  have hanm_ne : ¬(aAct.name = oldName) := by
    rw [hanm]
    intro h
    exact hneqold h.symm
  have hmem3 : aAct ∈ (activatedStore st2 newName).configs :=
    List.mem_of_find?_eq_some hfind3'
  have hdelOk3 : (activatedStore st2 newName).deleteOk = st.deleteOk := hd2
  constructor
  · intro hdel
    have hdelete : deleteConfiguration (activatedStore st2 newName) oldName =
        (.ok, removedStore (activatedStore st2 newName) oldName, [.delete oldName]) := by
      simp [deleteConfiguration, hexold3, hfind3', hanm_ne, removedStore,
        show (activatedStore st2 newName).deleteOk oldName = true from by rw [hdelOk3]; exact hdel]
    refine ⟨removedStore (activatedStore st2 newName) oldName, Ev.create newName :: tCopy,
      ?_, ⟨aAct, ?_, hanm, hax⟩, ?_⟩
    · simp [renameConfiguration, hexold, hnew, hinfo, hcreate, hcopy, hactv, hactivate, hdelete]
    · exact List.mem_filter.mpr ⟨hmem3, by simp [hanm_ne]⟩
    · exact configurationExists_filter_self _ _
  · intro hdel
    have hdelete : deleteConfiguration (activatedStore st2 newName) oldName =
        (.errExternal, activatedStore st2 newName, [.delete oldName]) := by
      simp [deleteConfiguration, hexold3, hfind3', hanm_ne,
        show (activatedStore st2 newName).deleteOk oldName = false from by rw [hdelOk3]; exact hdel]
    refine ⟨activatedStore st2 newName, Ev.create newName :: tCopy,
      ?_, ⟨aAct, hmem3, hanm, hax⟩, hexold3, hexnew3⟩
    simp [renameConfiguration, hexold, hnew, hinfo, hcreate, hcopy, hactv, hactivate, hdelete]

/-- A store whose active configuration `old-cfg` is about to be
renamed. -/
def renameStoreW : Store :=
  { configs :=
      [{ name := "old-cfg", isActive := true, properties := emptyProperties },
       { name := "other", isActive := false, properties := emptyProperties }]
    createOk := fun _ => true
    setPropOk := fun _ _ _ => true
    activateOk := fun _ => true
    deleteOk := fun _ => true }

/-- Witness for C4: renaming the active `old-cfg` to `new-cfg` with all
external commands succeeding. -/
theorem renameConfiguration_active_old_witness :
    ∃ stF pre, renameConfiguration renameStoreW "old-cfg" "new-cfg" =
        (RenameResult.ok, stF, pre ++ [Ev.activate "new-cfg", Ev.delete "old-cfg"]) ∧
      (∃ c, c ∈ stF.configs ∧ c.name = "new-cfg" ∧ c.isActive = true) ∧
      configurationExists stF.configs "old-cfg" = false :=
  (renameConfiguration_active_old renameStoreW "old-cfg" "new-cfg"
    { name := "old-cfg", isActive := true, properties := emptyProperties }
    (by decide) (by decide) rfl rfl (fun k v => rfl) rfl).1 rfl

/-- C10: the create command validates nothing: for every name — whether
or not it satisfies the naming rule — the outcome depends only on
existence in the store and on the external create command, with the name
forwarded unchanged as the create call; an existing name fails with
already-exists before any external call, and an external create failure
is surfaced. -/
theorem runCreate_no_validation (st : Store) (name : String) :
    (configurationExists st.configs name = false → st.createOk name = true →
      runCreate true false st name = (.ok, afterCreate st name, [Ev.create name])) ∧
    (configurationExists st.configs name = true →
      runCreate true false st name = (.errAlreadyExists, st, [])) ∧
    (configurationExists st.configs name = false → st.createOk name = false →
      runCreate true false st name = (.errCreateFailed, st, [Ev.create name])) := by
  refine ⟨fun h1 h2 => ?_, fun h1 => ?_, fun h1 h2 => ?_⟩
  · simp [runCreate, createConfiguration, afterCreate, h1, h2]
  · simp [runCreate, createConfiguration, h1]
  · simp [runCreate, createConfiguration, h1, h2]

/-- Witness for C10: creating a configuration whose name violates the
naming rule succeeds anyway. -/
theorem runCreate_no_validation_witness :
    specNameRule "9bad name!" = false ∧
    runCreate true false baseStore "9bad name!" =
      (CreateCmdResult.ok, afterCreate baseStore "9bad name!", [Ev.create "9bad name!"]) :=
  ⟨by decide, (runCreate_no_validation baseStore "9bad name!").1 (by decide) rfl⟩

end Gcloudctx
